import Mathlib

/-!
Verification development for the MarQS message broker
(apps/webapp/app/v3/marqs/index.server.ts).

The broker keeps its state in a sorted-set store. We embed that store
shallowly: sorted sets become association lists from member to score,
plain sets become lists of members, and the six atomic server-side
scripts become pure state-transforming functions translated line by
line from their Lua bodies. Broker-level operations are translated
from the TypeScript methods of the MarQS class; the pluggable key
producer and the priority strategy choice are parameters, exactly as
they are injected in the source (options.keysProducer, and the queue
returned by the read-only #getRandomQueueFromParentQueue).
-/

namespace Marqs

/-- A Redis sorted set, modelled as an association list from member to
score. Scores are millisecond timestamps, hence integers. -/
abbrev ZSet := List (String × Int)

/-- A Redis plain set (the current-concurrency sets), modelled as a list
of members kept duplicate-free by sadd. -/
abbrev RSet := List String

/-- ZSCORE: the score of a member, or none when absent. -/
def zscore (z : ZSet) (m : String) : Option Int :=
  (z.find? (fun p => p.1 == m)).map (fun p => p.2)

/-- ZREM: remove a member. -/
def zrem (z : ZSet) (m : String) : ZSet :=
  z.filter (fun p => p.1 != m)

/-- ZADD: insert or update a member at the given score. -/
def zadd (z : ZSet) (score : Int) (m : String) : ZSet :=
  (m, score) :: zrem z m

/-- Redis sorted-set ordering on (score, member): by score, ties broken
lexicographically on the member. -/
def zPairLt (p q : String × Int) : Bool :=
  decide (p.2 < q.2) || (p.2 == q.2 && decide (p.1 < q.1))

/-- The least element of a sorted set among those satisfying a predicate,
in the (score, member) order. -/
def zMinP : ZSet → ((String × Int) → Bool) → Option (String × Int)
  | [], _ => none
  | p :: rest, pred =>
    match zMinP rest pred with
    | none => if pred p then some p else none
    | some q => if pred p then (if zPairLt p q then some p else some q) else some q

/-- ZRANGE key 0 0 WITHSCORES: the least (score, member) pair, or none
when the set is empty. -/
def zMin (z : ZSet) : Option (String × Int) :=
  zMinP z (fun _ => true)

/-- ZRANGEBYSCORE key -inf now WITHSCORES LIMIT 0 1: the least
(score, member) pair among members with score at most now. -/
def zMinDue (z : ZSet) (now : Int) : Option (String × Int) :=
  zMinP z (fun p => decide (p.2 ≤ now))

/-- Non-strict version of the (score, member) order. -/
def zPairLe (p q : String × Int) : Bool :=
  !(zPairLt q p)

/-- Insert a pair into a list sorted by the (score, member) order. -/
def zInsertSorted (p : String × Int) : List (String × Int) → List (String × Int)
  | [] => [p]
  | q :: rest => if zPairLe p q then p :: q :: rest else q :: zInsertSorted p rest

/-- The entries of a sorted set listed in the (score, member) order. -/
def zSorted (z : ZSet) : List (String × Int) :=
  z.foldr zInsertSorted []

/-- ZRANGEBYSCORE key lo hi LIMIT 0 n: the first n members whose score
lies in [lo, hi], in the (score, member) order. -/
def zrangebyscore (z : ZSet) (lo hi : Int) (limit : Nat) : List String :=
  (((zSorted z).filter (fun p => decide (lo ≤ p.2) && decide (p.2 ≤ hi))).take limit).map
    (fun p => p.1)

/-- SADD: add a member (sets hold each member once). -/
def sadd (s : RSet) (m : String) : RSet :=
  if s.contains m then s else m :: s

/-- SREM: remove a member. -/
def srem (s : RSet) (m : String) : RSet :=
  s.filter (fun x => x != m)

/-- SCARD: the number of members. -/
def scard (s : RSet) : Int :=
  Int.ofNat s.length

/-- The message payload written at enqueue time (types.ts MessagePayload,
as constructed by MarQS.enqueueMessage). The data record is modelled as
an association list from field name to value. -/
structure MessagePayload where
  version : String
  data : List (String × String)
  queue : String
  concurrencyKey : Option String
  timestamp : Int
  messageId : String
  parentQueue : String
deriving DecidableEq

/-- A stored message body: either a JSON string that parses to a
MessagePayload, or a present-but-unparsable string (safeParse failure). -/
inductive Body where
  | valid (payload : MessagePayload)
  | invalid
deriving DecidableEq

/-- The slice of the Redis keyspace the broker touches: message bodies
(strings), the child and parent queue sorted sets (keyed), the
visibility-timeout sorted set (the broker always passes the constant
key msgVisibilityTimeout for it, so it is a dedicated field), the
current-concurrency sets (keyed) and the concurrency-limit integers
(keyed). -/
structure Store where
  messages : List (String × Body)
  zsets : List (String × ZSet)
  visibility : ZSet
  sets : List (String × RSet)
  limits : List (String × Int)
deriving DecidableEq

/-- GET of a message body key. -/
def getBody (s : Store) (k : String) : Option Body :=
  (s.messages.find? (fun p => p.1 == k)).map (fun p => p.2)

/-- SET of a message body key. -/
def putBody (s : Store) (k : String) (b : Body) : Store :=
  { s with messages := (k, b) :: s.messages.filter (fun p => p.1 != k) }

/-- DEL of a message body key. -/
def delBody (s : Store) (k : String) : Store :=
  { s with messages := s.messages.filter (fun p => p.1 != k) }

/-- The sorted set stored at a key (a missing key reads as empty). -/
def getZ (s : Store) (k : String) : ZSet :=
  ((s.zsets.find? (fun p => p.1 == k)).map (fun p => p.2)).getD []

/-- Replace the sorted set stored at a key. -/
def putZ (s : Store) (k : String) (z : ZSet) : Store :=
  { s with zsets := (k, z) :: s.zsets.filter (fun p => p.1 != k) }

/-- The plain set stored at a key (a missing key reads as empty). -/
def getS (s : Store) (k : String) : RSet :=
  ((s.sets.find? (fun p => p.1 == k)).map (fun p => p.2)).getD []

/-- Replace the plain set stored at a key. -/
def putS (s : Store) (k : String) (v : RSet) : Store :=
  { s with sets := (k, v) :: s.sets.filter (fun p => p.1 != k) }

/-- Lua tonumber(redis.call('GET', key) or default): the integer stored
at a limit key, falling back to the supplied default when absent. -/
def getLimit (s : Store) (k : String) (dflt : Int) : Int :=
  ((s.limits.find? (fun p => p.1 == k)).map (fun p => p.2)).getD dflt

/-- Embedding of the enqueueMessage Lua script (index.server.ts lines
865-891): write the body, ZADD the id into the child queue at the given
score, then rebalance the parent from the child's new minimum. -/
def enqueueMessage (s : Store) (queue parentQueue messageKey : String)
    (queueName messageId : String) (messageData : Body) (messageScore : Int) : Store :=
  let s1 := putBody s messageKey messageData
  let s2 := putZ s1 queue (zadd (getZ s1 queue) messageScore messageId)
  match zMin (getZ s2 queue) with
  | none => putZ s2 parentQueue (zrem (getZ s2 parentQueue) queueName)
  | some earliest => putZ s2 parentQueue (zadd (getZ s2 parentQueue) earliest.2 queueName)

/-- Embedding of the dequeueMessage Lua script (index.server.ts lines
893-967): check the org, env and queue concurrency ceilings in that
order, take the oldest due message from the child queue, move it into
the visibility set at currentTime + visibilityTimeout, add it to the
three current-concurrency sets, and rebalance the parent. -/
def dequeueMessage (s : Store)
    (childQueue parentQueue : String)
    (concurrencyLimitKey envConcurrencyLimitKey orgConcurrencyLimitKey : String)
    (currentConcurrencyKey envCurrentConcurrencyKey orgCurrentConcurrencyKey : String)
    (childQueueName : String)
    (visibilityTimeout currentTime : Int)
    (defaultConcurrencyLimit defaultEnvConcurrencyLimit defaultOrgConcurrencyLimit : Int) :
    Option (String × Int) × Store :=
  let orgCurrentConcurrency := scard (getS s orgCurrentConcurrencyKey)
  let orgConcurrencyLimit := getLimit s orgConcurrencyLimitKey defaultOrgConcurrencyLimit
  if orgCurrentConcurrency ≥ orgConcurrencyLimit then (none, s)
  else
    let envCurrentConcurrency := scard (getS s envCurrentConcurrencyKey)
    let envConcurrencyLimit := getLimit s envConcurrencyLimitKey defaultEnvConcurrencyLimit
    if envCurrentConcurrency ≥ envConcurrencyLimit then (none, s)
    else
      let currentConcurrency := scard (getS s currentConcurrencyKey)
      let concurrencyLimit := getLimit s concurrencyLimitKey defaultConcurrencyLimit
      if currentConcurrency ≥ concurrencyLimit then (none, s)
      else
        match zMinDue (getZ s childQueue) currentTime with
        | none => (none, s)
        | some (messageId, messageScore) =>
          let timeoutScore := currentTime + visibilityTimeout
          let s1 := putZ s childQueue (zrem (getZ s childQueue) messageId)
          let s2 := { s1 with visibility := zadd s1.visibility timeoutScore messageId }
          let s3 := putS s2 currentConcurrencyKey
            (sadd (getS s2 currentConcurrencyKey) messageId)
          let s4 := putS s3 envCurrentConcurrencyKey
            (sadd (getS s3 envCurrentConcurrencyKey) messageId)
          let s5 := putS s4 orgCurrentConcurrencyKey
            (sadd (getS s4 orgCurrentConcurrencyKey) messageId)
          let s6 :=
            match zMin (getZ s5 childQueue) with
            | none => putZ s5 parentQueue (zrem (getZ s5 parentQueue) childQueueName)
            | some earliest =>
              putZ s5 parentQueue (zadd (getZ s5 parentQueue) earliest.2 childQueueName)
          (some (messageId, messageScore), s6)

/-- Embedding of the acknowledgeMessage Lua script (index.server.ts lines
969-994): delete the body, remove the id from the visibility set and
from the three current-concurrency sets. -/
def acknowledgeMessage (s : Store)
    (messageKey concurrencyKey envCurrentConcurrencyKey orgCurrentConcurrencyKey : String)
    (messageId : String) : Store :=
  let s1 := delBody s messageKey
  let s2 := { s1 with visibility := zrem s1.visibility messageId }
  let s3 := putS s2 concurrencyKey (srem (getS s2 concurrencyKey) messageId)
  let s4 := putS s3 envCurrentConcurrencyKey (srem (getS s3 envCurrentConcurrencyKey) messageId)
  putS s4 orgCurrentConcurrencyKey (srem (getS s4 orgCurrentConcurrencyKey) messageId)

/-- Embedding of the nackMessage Lua script (index.server.ts lines
996-1040). The guard reads tonumber(ZSCORE(visibility, id)) or 0 and
returns when the result equals 0; otherwise the id is removed from the
three current-concurrency sets and the visibility set, re-added to the
child queue at messageScore, and the parent is rebalanced. The
messageKey and currentTime parameters are read but unused, as in the
Lua body. -/
def nackMessage (s : Store)
    (messageKey childQueueKey parentQueueKey : String)
    (concurrencyKey envConcurrencyKey orgConcurrencyKey : String)
    (childQueueName messageId : String)
    (currentTime messageScore : Int) : Store :=
  let messageVisibility := (zscore s.visibility messageId).getD 0
  if messageVisibility == 0 then s
  else
    let s1 := putS s concurrencyKey (srem (getS s concurrencyKey) messageId)
    let s2 := putS s1 envConcurrencyKey (srem (getS s1 envConcurrencyKey) messageId)
    let s3 := putS s2 orgConcurrencyKey (srem (getS s2 orgConcurrencyKey) messageId)
    let s4 := { s3 with visibility := zrem s3.visibility messageId }
    let s5 := putZ s4 childQueueKey (zadd (getZ s4 childQueueKey) messageScore messageId)
    match zMin (getZ s5 childQueueKey) with
    | none => putZ s5 parentQueueKey (zrem (getZ s5 parentQueueKey) childQueueName)
    | some earliest =>
      putZ s5 parentQueueKey (zadd (getZ s5 parentQueueKey) earliest.2 childQueueName)

/-- Embedding of the heartbeatMessage Lua script (index.server.ts lines
1042-1066). The guard reads tonumber(ZSCORE(visibility, id)) or 0 and
returns when the result equals 0; otherwise the score is set to
min(current + milliseconds * 1000, maxVisibilityTimeout) - the extra
factor 1000 is in the Lua source (line 1061). -/
def heartbeatMessage (s : Store) (messageId : String)
    (milliseconds maxVisibilityTimeout : Int) : Store :=
  let currentVisibilityTimeout := (zscore s.visibility messageId).getD 0
  if currentVisibilityTimeout == 0 then s
  else
    let newVisibilityTimeout :=
      min (currentVisibilityTimeout + milliseconds * 1000) maxVisibilityTimeout
    { s with visibility := zadd s.visibility newVisibilityTimeout messageId }

/-- The pluggable key scheme (MarQSOptions.keysProducer). The broker
methods only ever call these functions, so the embedding is parametric
over them, exactly as the MarQS class is over its MarQSKeyProducer. -/
structure MarQSKeyProducer where
  messageKey : String → String
  queueKey : String → String → Option String → String
  envSharedQueueKey : String → String
  concurrencyLimitKeyFromQueue : String → String
  currentConcurrencyKeyFromQueue : String → String
  envConcurrencyLimitKeyFromQueue : String → String
  envCurrentConcurrencyKeyFromQueue : String → String
  orgConcurrencyLimitKeyFromQueue : String → String
  orgCurrentConcurrencyKeyFromQueue : String → String

/-- constants.SHARED_QUEUE. -/
def SHARED_QUEUE : String := "sharedQueue"

/-- The configuration fields of MarQSOptions that the modelled
operations read. -/
structure MarQSOptions where
  defaultQueueConcurrency : Int
  defaultEnvConcurrency : Int
  defaultOrgConcurrency : Int
  visibilityTimeoutInMs : Option Int

/-- The visibilityTimeoutInMs getter: options.visibilityTimeoutInMs with
fallback 300000 (index.server.ts lines 438-440). -/
def visibilityTimeoutInMs (o : MarQSOptions) : Int :=
  o.visibilityTimeoutInMs.getD 300000

/-- Abstraction of propagation.inject(context.active(), messageData)
(an external OpenTelemetry call): the active trace context, given here
as a list of field-value pairs, is written into the data record,
overwriting any fields of the same name. -/
def injectTraceContext (traceContext data : List (String × String)) :
    List (String × String) :=
  traceContext ++ data.filter (fun p => !((traceContext.map (fun q => q.1)).contains p.1))

/-- Field lookup in a data record. -/
def dataLookup (l : List (String × String)) (k : String) : Option String :=
  (l.find? (fun p => p.1 == k)).map (fun p => p.2)

/-- The MessagePayload value MarQS.enqueueMessage builds (index.server.ts
lines 100-116): version 1, the trace-injected data, the resolved child
queue key, the enqueue timestamp, and the env-scoped parent queue key. -/
def enqueuedPayload (keys : MarQSKeyProducer) (envId queue messageId : String)
    (messageData : List (String × String)) (concurrencyKey : Option String)
    (timestamp : Int) (traceContext : List (String × String)) : MessagePayload :=
  { version := "1"
    data := injectTraceContext traceContext messageData
    queue := keys.queueKey envId queue concurrencyKey
    concurrencyKey := concurrencyKey
    timestamp := timestamp
    messageId := messageId
    parentQueue := keys.envSharedQueueKey envId }

/-- Embedding of MarQS.enqueueMessage (index.server.ts lines 90-137):
build the payload and invoke the enqueue script with the resolved child
queue key (passed both as key and as queue name), the env-scoped parent
key, and score equal to the enqueue timestamp. -/
def MarQS.enqueueMessage (keys : MarQSKeyProducer) (s : Store)
    (envId queue messageId : String) (messageData : List (String × String))
    (concurrencyKey : Option String) (nowMs : Int)
    (traceContext : List (String × String)) : Store :=
  let messageQueue := keys.queueKey envId queue concurrencyKey
  let parentQueue := keys.envSharedQueueKey envId
  Marqs.enqueueMessage s messageQueue parentQueue (keys.messageKey messageId)
    messageQueue messageId
    (Body.valid (enqueuedPayload keys envId queue messageId messageData concurrencyKey
      nowMs traceContext))
    nowMs

/-- Embedding of MarQS.#readMessage (index.server.ts lines 442-474):
GET the body key; none when absent, none (after logging) when the JSON
does not parse as a MessagePayload, the payload otherwise. -/
def MarQS.readMessage (keys : MarQSKeyProducer) (s : Store) (messageId : String) :
    Option MessagePayload :=
  match getBody s (keys.messageKey messageId) with
  | none => none
  | some Body.invalid => none
  | some (Body.valid payload) => some payload

/-- Embedding of MarQS.#callDequeueMessage (index.server.ts lines
652-707): invoke the dequeue script with the keys reconstructed from
the chosen child queue, visibility timeout options.visibilityTimeoutInMs
with fallback 300000, the current time, and the three configured default
concurrency limits. -/
def MarQS.callDequeueMessage (keys : MarQSKeyProducer) (o : MarQSOptions)
    (s : Store) (messageQueue parentQueue : String) (nowMs : Int) :
    Option (String × Int) × Store :=
  dequeueMessage s messageQueue parentQueue
    (keys.concurrencyLimitKeyFromQueue messageQueue)
    (keys.envConcurrencyLimitKeyFromQueue messageQueue)
    (keys.orgConcurrencyLimitKeyFromQueue messageQueue)
    (keys.currentConcurrencyKeyFromQueue messageQueue)
    (keys.envCurrentConcurrencyKeyFromQueue messageQueue)
    (keys.orgCurrentConcurrencyKeyFromQueue messageQueue)
    messageQueue (visibilityTimeoutInMs o) nowMs
    o.defaultQueueConcurrency o.defaultEnvConcurrency o.defaultOrgConcurrency

/-- Embedding of MarQS.dequeueMessageInEnv (index.server.ts lines
139-199). The child queue chosen by the priority strategy is a
parameter (the strategy call #getRandomQueueFromParentQueue only reads
the store); none models the strategy returning no queue. On success the
method reads and returns the message payload; the result here also
carries the dequeued message id, which the method holds in
messageData.messageId. -/
def MarQS.dequeueMessageInEnv (keys : MarQSKeyProducer) (o : MarQSOptions)
    (s : Store) (envId : String) (chosenQueue : Option String) (nowMs : Int) :
    Option (String × MessagePayload) × Store :=
  match chosenQueue with
  | none => (none, s)
  | some messageQueue =>
    let parentQueue := keys.envSharedQueueKey envId
    let r := MarQS.callDequeueMessage keys o s messageQueue parentQueue nowMs
    match r.1 with
    | none => (none, r.2)
    | some (messageId, _score) =>
      match MarQS.readMessage keys r.2 messageId with
      | none => (none, r.2)
      | some message => (some (messageId, message), r.2)

/-- Embedding of MarQS.dequeueMessageInSharedQueue (index.server.ts lines
204-264): as dequeueMessageInEnv but with the constant shared parent. -/
def MarQS.dequeueMessageInSharedQueue (keys : MarQSKeyProducer) (o : MarQSOptions)
    (s : Store) (chosenQueue : Option String) (nowMs : Int) :
    Option (String × MessagePayload) × Store :=
  match chosenQueue with
  | none => (none, s)
  | some messageQueue =>
    let r := MarQS.callDequeueMessage keys o s messageQueue SHARED_QUEUE nowMs
    match r.1 with
    | none => (none, r.2)
    | some (messageId, _score) =>
      match MarQS.readMessage keys r.2 messageId with
      | none => (none, r.2)
      | some message => (some (messageId, message), r.2)

/-- Embedding of MarQS.acknowledgeMessage (index.server.ts lines
266-301): read the body; return unchanged when it is missing or
unparsable, otherwise invoke the ack script with keys reconstructed
from the payload's queue. -/
def MarQS.acknowledgeMessage (keys : MarQSKeyProducer) (s : Store)
    (messageId : String) : Store :=
  match MarQS.readMessage keys s messageId with
  | none => s
  | some message =>
    Marqs.acknowledgeMessage s (keys.messageKey messageId)
      (keys.currentConcurrencyKeyFromQueue message.queue)
      (keys.envCurrentConcurrencyKeyFromQueue message.queue)
      (keys.orgCurrentConcurrencyKeyFromQueue message.queue)
      messageId

/-- Embedding of MarQS.nackMessage (index.server.ts lines 388-426): read
the body; return unchanged when it is missing or unparsable, otherwise
invoke the nack script with messageScore = retryAt (default Date.now()
at the call site). -/
def MarQS.nackMessage (keys : MarQSKeyProducer) (s : Store)
    (messageId : String) (nowMs retryAt : Int) : Store :=
  match MarQS.readMessage keys s messageId with
  | none => s
  | some message =>
    Marqs.nackMessage s (keys.messageKey messageId) message.queue message.parentQueue
      (keys.currentConcurrencyKeyFromQueue message.queue)
      (keys.envCurrentConcurrencyKeyFromQueue message.queue)
      (keys.orgCurrentConcurrencyKeyFromQueue message.queue)
      message.queue messageId nowMs retryAt

/-- Embedding of MarQS.replaceMessage (index.server.ts lines 303-354):
read the old body; return unchanged when it is missing or unparsable,
otherwise ack and re-enqueue under the same id, queue, concurrency key
and parent, with the new data (no trace injection here) and timestamp
defaulting to now. -/
def MarQS.replaceMessage (keys : MarQSKeyProducer) (s : Store)
    (messageId : String) (messageData : List (String × String))
    (timestamp : Option Int) (nowMs : Int) : Store :=
  match MarQS.readMessage keys s messageId with
  | none => s
  | some oldMessage =>
    let s1 := Marqs.acknowledgeMessage s (keys.messageKey messageId)
      (keys.currentConcurrencyKeyFromQueue oldMessage.queue)
      (keys.envCurrentConcurrencyKeyFromQueue oldMessage.queue)
      (keys.orgCurrentConcurrencyKeyFromQueue oldMessage.queue)
      messageId
    let newMessage : MessagePayload :=
      { version := "1"
        data := messageData
        queue := oldMessage.queue
        concurrencyKey := oldMessage.concurrencyKey
        timestamp := timestamp.getD nowMs
        messageId := messageId
        parentQueue := oldMessage.parentQueue }
    Marqs.enqueueMessage s1 newMessage.queue newMessage.parentQueue
      (keys.messageKey messageId) newMessage.queue messageId
      (Body.valid newMessage) newMessage.timestamp

/-- Embedding of MarQS.heartbeatMessage (index.server.ts lines 429-436):
invoke the heartbeat script with milliseconds = seconds * 1000 and
maxVisibilityTimeout = Date.now() + the configured visibility timeout. -/
def MarQS.heartbeatMessage (o : MarQSOptions) (s : Store) (nowMs : Int)
    (messageId : String) (seconds : Int) : Store :=
  Marqs.heartbeatMessage s messageId (seconds * 1000) (nowMs + visibilityTimeoutInMs o)

/-- One iteration of the loop body of MarQS.#requeueVisibleMessages
(index.server.ts lines 602-633): GET the body of one expired id; when
missing or unparsable, ZREM the id from the visibility set; otherwise
invoke the nack script with the payload's queue, parent queue, message
id and messageScore = the payload's original enqueue timestamp. -/
def requeueStep (keys : MarQSKeyProducer) (nowMs : Int) (st : Store)
    (message : String) : Store :=
  match getBody st (keys.messageKey message) with
  | none => { st with visibility := zrem st.visibility message }
  | some Body.invalid => { st with visibility := zrem st.visibility message }
  | some (Body.valid parsed) =>
    nackMessage st (keys.messageKey message) parsed.queue parsed.parentQueue
      (keys.currentConcurrencyKeyFromQueue parsed.queue)
      (keys.envCurrentConcurrencyKeyFromQueue parsed.queue)
      (keys.orgCurrentConcurrencyKeyFromQueue parsed.queue)
      parsed.queue parsed.messageId nowMs parsed.timestamp

/-- Embedding of one cycle of MarQS.#requeueVisibleMessages
(index.server.ts lines 587-634): ZRANGEBYSCORE the visibility set over
[0, now] LIMIT 0 10 and process each returned id in order. -/
def requeueVisibleMessages (keys : MarQSKeyProducer) (s : Store) (nowMs : Int) : Store :=
  let messages := zrangebyscore s.visibility 0 nowMs 10
  messages.foldl (requeueStep keys nowMs) s

/-- One broker dequeue call in a consumer trace: from an environment's
parent queue or from the shared parent, with the strategy's queue
choice and the call time as inputs. -/
inductive DequeueCall where
  | fromEnv (envId : String) (chosenQueue : Option String) (nowMs : Int)
  | fromShared (chosenQueue : Option String) (nowMs : Int)

/-- Run one DequeueCall. -/
def dequeueStep (keys : MarQSKeyProducer) (o : MarQSOptions) (s : Store) :
    DequeueCall → Option (String × MessagePayload) × Store
  | .fromEnv envId chosenQueue nowMs =>
    MarQS.dequeueMessageInEnv keys o s envId chosenQueue nowMs
  | .fromShared chosenQueue nowMs =>
    MarQS.dequeueMessageInSharedQueue keys o s chosenQueue nowMs

/-- Run a sequence of broker dequeue calls, collecting each call's
result. -/
def runDequeues (keys : MarQSKeyProducer) (o : MarQSOptions) (s : Store) :
    List DequeueCall → Store × List (Option (String × MessagePayload))
  | [] => (s, [])
  | c :: rest =>
    let r := dequeueStep keys o s c
    let t := runDequeues keys o r.2 rest
    (t.1, r.1 :: t.2)

/-! Lemmas about the store primitives. -/

lemma find?_filter_ne {α : Type} (l : List (String × α)) (k k' : String) (h : k' ≠ k) :
    (l.filter (fun p => p.1 != k)).find? (fun p => p.1 == k') =
      l.find? (fun p => p.1 == k') := by
  induction l with
  | nil => rfl
  | cons p t ih =>
    by_cases hp : p.1 = k'
    · rw [List.filter_cons, if_pos (by simp [hp, h]), List.find?_cons_of_pos _ (by simp [hp]),
        List.find?_cons_of_pos _ (by simp [hp])]
    · by_cases hk : p.1 = k
      · rw [List.filter_cons, if_neg (by simp [hk]), List.find?_cons_of_neg _ (by simp [hp]), ih]
      · rw [List.filter_cons, if_pos (by simp [hk]), List.find?_cons_of_neg _ (by simp [hp]),
          List.find?_cons_of_neg _ (by simp [hp]), ih]

lemma find?_filter_self {α : Type} (l : List (String × α)) (k : String) :
    (l.filter (fun p => p.1 != k)).find? (fun p => p.1 == k) = none := by
  rw [List.find?_eq_none]
  intro x hx
  have := List.of_mem_filter hx
  simp at this
  simp [this]

@[simp] lemma putZ_messages (s : Store) (k : String) (z : ZSet) :
    (putZ s k z).messages = s.messages := rfl

@[simp] lemma putZ_visibility (s : Store) (k : String) (z : ZSet) :
    (putZ s k z).visibility = s.visibility := rfl

@[simp] lemma putZ_sets (s : Store) (k : String) (z : ZSet) :
    (putZ s k z).sets = s.sets := rfl

@[simp] lemma putZ_limits (s : Store) (k : String) (z : ZSet) :
    (putZ s k z).limits = s.limits := rfl

@[simp] lemma putS_messages (s : Store) (k : String) (v : RSet) :
    (putS s k v).messages = s.messages := rfl

@[simp] lemma putS_zsets (s : Store) (k : String) (v : RSet) :
    (putS s k v).zsets = s.zsets := rfl

@[simp] lemma putS_visibility (s : Store) (k : String) (v : RSet) :
    (putS s k v).visibility = s.visibility := rfl

@[simp] lemma putS_limits (s : Store) (k : String) (v : RSet) :
    (putS s k v).limits = s.limits := rfl

@[simp] lemma putBody_zsets (s : Store) (k : String) (b : Body) :
    (putBody s k b).zsets = s.zsets := rfl

@[simp] lemma putBody_visibility (s : Store) (k : String) (b : Body) :
    (putBody s k b).visibility = s.visibility := rfl

@[simp] lemma putBody_sets (s : Store) (k : String) (b : Body) :
    (putBody s k b).sets = s.sets := rfl

@[simp] lemma putBody_limits (s : Store) (k : String) (b : Body) :
    (putBody s k b).limits = s.limits := rfl

@[simp] lemma delBody_zsets (s : Store) (k : String) :
    (delBody s k).zsets = s.zsets := rfl

@[simp] lemma delBody_visibility (s : Store) (k : String) :
    (delBody s k).visibility = s.visibility := rfl

@[simp] lemma delBody_sets (s : Store) (k : String) :
    (delBody s k).sets = s.sets := rfl

@[simp] lemma delBody_limits (s : Store) (k : String) :
    (delBody s k).limits = s.limits := rfl

@[simp] lemma getZ_putZ_self (s : Store) (k : String) (z : ZSet) :
    getZ (putZ s k z) k = z := by
  simp [getZ, putZ, List.find?_cons_of_pos]

lemma getZ_putZ_ne (s : Store) (k k' : String) (z : ZSet) (h : k' ≠ k) :
    getZ (putZ s k z) k' = getZ s k' := by
  simp only [getZ, putZ]
  rw [List.find?_cons_of_neg _ (by simp [Ne.symm h]), find?_filter_ne _ _ _ h]

@[simp] lemma getS_putS_self (s : Store) (k : String) (v : RSet) :
    getS (putS s k v) k = v := by
  simp [getS, putS, List.find?_cons_of_pos]

lemma getS_putS_ne (s : Store) (k k' : String) (v : RSet) (h : k' ≠ k) :
    getS (putS s k v) k' = getS s k' := by
  simp only [getS, putS]
  rw [List.find?_cons_of_neg _ (by simp [Ne.symm h]), find?_filter_ne _ _ _ h]

@[simp] lemma getBody_putBody_self (s : Store) (k : String) (b : Body) :
    getBody (putBody s k b) k = some b := by
  simp [getBody, putBody, List.find?_cons_of_pos]

lemma getBody_putBody_ne (s : Store) (k k' : String) (b : Body) (h : k' ≠ k) :
    getBody (putBody s k b) k' = getBody s k' := by
  simp only [getBody, putBody]
  rw [List.find?_cons_of_neg _ (by simp [Ne.symm h]), find?_filter_ne _ _ _ h]

@[simp] lemma getBody_delBody_self (s : Store) (k : String) :
    getBody (delBody s k) k = none := by
  simp only [getBody, delBody]
  rw [find?_filter_self]
  rfl

/-! Lemmas about the sorted-set primitives. -/

@[simp] lemma zscore_zadd_self (z : ZSet) (sc : Int) (m : String) :
    zscore (zadd z sc m) m = some sc := by
  simp [zscore, zadd, List.find?_cons_of_pos]

lemma zscore_zadd_ne (z : ZSet) (sc : Int) (m m' : String) (h : m' ≠ m) :
    zscore (zadd z sc m) m' = zscore z m' := by
  simp only [zscore, zadd, zrem]
  rw [List.find?_cons_of_neg _ (by simp [Ne.symm h]), find?_filter_ne _ _ _ h]

@[simp] lemma zscore_zrem_self (z : ZSet) (m : String) :
    zscore (zrem z m) m = none := by
  simp only [zscore, zrem]
  rw [find?_filter_self]
  rfl

lemma zscore_zrem_ne (z : ZSet) (m m' : String) (h : m' ≠ m) :
    zscore (zrem z m) m' = zscore z m' := by
  simp only [zscore, zrem]
  rw [find?_filter_ne _ _ _ h]

lemma mem_sadd_self (s : RSet) (m : String) : m ∈ sadd s m := by
  unfold sadd
  split
  · next h => exact List.mem_of_elem_eq_true h
  · exact List.mem_cons_self _ _

lemma mem_sadd_of_mem (s : RSet) (m a : String) (h : a ∈ s) : a ∈ sadd s m := by
  unfold sadd
  split
  · exact h
  · exact List.mem_cons_of_mem _ h

lemma not_mem_srem_self (s : RSet) (m : String) : m ∉ srem s m := by
  intro h
  have := List.of_mem_filter h
  simp at this

@[simp] lemma getZ_putS (s : Store) (k : String) (v : RSet) (k' : String) :
    getZ (putS s k v) k' = getZ s k' := rfl

@[simp] lemma getS_putZ (s : Store) (k : String) (z : ZSet) (k' : String) :
    getS (putZ s k z) k' = getS s k' := rfl

@[simp] lemma getBody_putZ (s : Store) (k : String) (z : ZSet) (k' : String) :
    getBody (putZ s k z) k' = getBody s k' := rfl

@[simp] lemma getBody_putS (s : Store) (k : String) (v : RSet) (k' : String) :
    getBody (putS s k v) k' = getBody s k' := rfl

@[simp] lemma getZ_setVisibility (s : Store) (v : ZSet) (k : String) :
    getZ { s with visibility := v } k = getZ s k := rfl

@[simp] lemma getS_setVisibility (s : Store) (v : ZSet) (k : String) :
    getS { s with visibility := v } k = getS s k := rfl

@[simp] lemma getBody_setVisibility (s : Store) (v : ZSet) (k : String) :
    getBody { s with visibility := v } k = getBody s k := rfl

@[simp] lemma setVisibility_visibility (s : Store) (v : ZSet) :
    ({ s with visibility := v } : Store).visibility = v := rfl

lemma not_mem_getS_putS_srem (s : Store) (k k' mid : String)
    (h : k = k' ∨ mid ∉ getS s k) :
    mid ∉ getS (putS s k' (srem (getS s k') mid)) k := by
  by_cases hk : k = k'
  · subst hk
    rw [getS_putS_self]
    exact not_mem_srem_self _ _
  · rw [getS_putS_ne _ _ _ _ hk]
    rcases h with h | h
    · exact absurd h hk
    · exact h

/-! Minimum lemmas for the sorted-set order. -/

lemma le_of_zPairLt {p q : String × Int} (h : zPairLt p q = true) : p.2 ≤ q.2 := by
  unfold zPairLt at h
  simp only [Bool.or_eq_true, decide_eq_true_eq, Bool.and_eq_true, beq_iff_eq] at h
  rcases h with h | ⟨h, _⟩
  · exact le_of_lt h
  · exact le_of_eq h

lemma le_of_not_zPairLt {p q : String × Int} (h : zPairLt p q = false) : q.2 ≤ p.2 := by
  unfold zPairLt at h
  simp only [Bool.or_eq_false_iff, decide_eq_false_iff_not] at h
  exact le_of_not_lt h.1

lemma zMinP_eq_none {pred : (String × Int) → Bool} :
    ∀ {z : ZSet}, zMinP z pred = none → ∀ p ∈ z, pred p = false := by
  intro z
  induction z with
  | nil => intro _ p hp; cases hp
  | cons a t ih =>
    intro h p hp
    simp only [zMinP] at h
    rcases ht : zMinP t pred with _ | q
    · simp only [ht] at h
      by_cases ha : pred a = true
      · rw [if_pos ha] at h; simp at h
      · rcases List.mem_cons.mp hp with hp | hp
        · subst hp; exact Bool.eq_false_iff.mpr ha
        · exact ih ht p hp
    · simp only [ht] at h
      by_cases ha : pred a = true
      · rw [if_pos ha] at h
        by_cases hlt : zPairLt a q = true
        · rw [if_pos hlt] at h; simp at h
        · rw [if_neg hlt] at h; simp at h
      · rw [if_neg ha] at h; simp at h

lemma zMinP_mem_sat {pred : (String × Int) → Bool} :
    ∀ {z : ZSet} {p : String × Int}, zMinP z pred = some p → p ∈ z ∧ pred p = true := by
  intro z
  induction z with
  | nil => intro p h; cases h
  | cons a t ih =>
    intro p h
    simp only [zMinP] at h
    rcases ht : zMinP t pred with _ | q
    · simp only [ht] at h
      by_cases ha : pred a = true
      · rw [if_pos ha] at h
        obtain rfl : a = p := by simpa using h
        exact ⟨List.mem_cons_self _ _, ha⟩
      · rw [if_neg ha] at h; simp at h
    · simp only [ht] at h
      obtain ⟨hq1, hq2⟩ := ih ht
      by_cases ha : pred a = true
      · rw [if_pos ha] at h
        by_cases hlt : zPairLt a q = true
        · rw [if_pos hlt] at h
          obtain rfl : a = p := by simpa using h
          exact ⟨List.mem_cons_self _ _, ha⟩
        · rw [if_neg hlt] at h
          obtain rfl : q = p := by simpa using h
          exact ⟨List.mem_cons_of_mem _ hq1, hq2⟩
      · rw [if_neg ha] at h
        obtain rfl : q = p := by simpa using h
        exact ⟨List.mem_cons_of_mem _ hq1, hq2⟩

lemma zMinP_le {pred : (String × Int) → Bool} :
    ∀ {z : ZSet} {p : String × Int}, zMinP z pred = some p →
      ∀ q ∈ z, pred q = true → p.2 ≤ q.2 := by
  intro z
  induction z with
  | nil => intro p h; cases h
  | cons a t ih =>
    intro p h q hq hpq
    simp only [zMinP] at h
    rcases ht : zMinP t pred with _ | b
    · simp only [ht] at h
      by_cases ha : pred a = true
      · rw [if_pos ha] at h
        obtain rfl : a = p := by simpa using h
        rcases List.mem_cons.mp hq with hq | hq
        · subst hq; exact le_refl _
        · exact absurd hpq (by simp [zMinP_eq_none ht q hq])
      · rw [if_neg ha] at h; simp at h
    · simp only [ht] at h
      by_cases ha : pred a = true
      · rw [if_pos ha] at h
        by_cases hlt : zPairLt a b = true
        · rw [if_pos hlt] at h
          obtain rfl : a = p := by simpa using h
          rcases List.mem_cons.mp hq with hq | hq
          · subst hq; exact le_refl _
          · exact le_trans (le_of_zPairLt hlt) (ih ht q hq hpq)
        · rw [if_neg hlt] at h
          obtain rfl : b = p := by simpa using h
          rcases List.mem_cons.mp hq with hq | hq
          · subst hq; exact le_of_not_zPairLt (Bool.eq_false_iff.mpr hlt)
          · exact ih ht q hq hpq
      · rw [if_neg ha] at h
        obtain rfl : b = p := by simpa using h
        rcases List.mem_cons.mp hq with hq | hq
        · subst hq; exact absurd hpq (by simp [ha])
        · exact ih ht q hq hpq

lemma zMin_cons_isSome (p : String × Int) (l : List (String × Int)) :
    (zMin (p :: l)).isSome = true := by
  simp only [zMin, zMinP]
  rcases h : zMinP l (fun _ => true) with _ | q
  · simp
  · simp only [if_true]
    split <;> simp

/-! Concrete fixtures used to instantiate the theorems. -/

/-- A concrete key scheme (following the key shapes of the data model)
used only to instantiate theorems at concrete inputs. -/
def testKeys : MarQSKeyProducer :=
  { messageKey := fun id => "message:" ++ id
    queueKey := fun envId queue ck =>
      match ck with
      | none => "queue:" ++ envId ++ ":" ++ queue
      | some c => "queue:" ++ envId ++ ":" ++ queue ++ ":ck:" ++ c
    envSharedQueueKey := fun envId => "env:" ++ envId ++ ":sharedQueue"
    concurrencyLimitKeyFromQueue := fun q => "cl:" ++ q
    currentConcurrencyKeyFromQueue := fun q => "cc:" ++ q
    envConcurrencyLimitKeyFromQueue := fun q => "el:" ++ q
    envCurrentConcurrencyKeyFromQueue := fun q => "ecc:" ++ q
    orgConcurrencyLimitKeyFromQueue := fun q => "ol:" ++ q
    orgCurrentConcurrencyKeyFromQueue := fun q => "occ:" ++ q }

/-- Concrete options used only to instantiate theorems. -/
def testOptions : MarQSOptions :=
  { defaultQueueConcurrency := 10
    defaultEnvConcurrency := 10
    defaultOrgConcurrency := 10
    visibilityTimeoutInMs := some 100 }

/-- The empty store. -/
def emptyStore : Store :=
  { messages := [], zsets := [], visibility := [], sets := [], limits := [] }

/-- A store whose visibility ZSET holds message a with score exactly 0. -/
def zeroScoreState : Store :=
  { emptyStore with visibility := [("a", 0)] }

/-- A store whose visibility ZSET holds message a with score 1000. -/
def inFlightState : Store :=
  { emptyStore with visibility := [("a", 1000)] }

/-! Claim C1. -/

/-- C1 (code bug evaluation): with current visibility score 1000,
extension extensionMs = 1000 and clamp maxDeadlineMs = 1000000000, the
heartbeat script stores score 1000 + 1000 * 1000 = 1001000, not
min(1000 + 1000, 1000000000) = 2000 as the claim states: the Lua body
multiplies its milliseconds argument by a further 1000
(index.server.ts line 1061) although the broker already converts
seconds to milliseconds (line 433). -/
theorem C1_heartbeat_extension_eval :
    zscore (heartbeatMessage inFlightState "a" 1000 1000000000).visibility "a" =
        some 1001000 ∧
      min ((1000 : Int) + 1000) 1000000000 = 2000 := by
  exact ⟨rfl, by decide⟩

/-! Claim C2. -/

/-- A store with one message queued at score 0 in child queue q. -/
def queuedState : Store :=
  { emptyStore with zsets := [("q", [("a", 0)])] }

/-- C2 (counterexample): message a is dequeued at time 100 with
visibility timeout 100, so its original lease is 200; a broker
heartbeat at time 250 (clamped to 250 + 100) then moves its deadline to
350 > 200 + 100 = original lease + configured maximum visibility
timeout, refuting the claimed bound. -/
theorem C2_lease_bound_counterexample :
    zscore ((dequeueMessage queuedState "q" "p" "cl" "el" "ol" "cc" "ecc" "occ" "q"
        100 100 10 10 10).2).visibility "a" = some 200 ∧
      zscore (MarQS.heartbeatMessage testOptions
          ((dequeueMessage queuedState "q" "p" "cl" "el" "ol" "cc" "ecc" "occ" "q"
            100 100 10 10 10).2) 250 "a" 1).visibility "a" = some 350 ∧
      ¬ ((350 : Int) ≤ 200 + 100) := by
  exact ⟨rfl, rfl, by decide⟩

/-- C2 (amended): after a broker heartbeat at time nowMs, a message's
visibility deadline is at most the larger of its previous deadline and
nowMs + the configured visibility timeout. The deadline is bounded
relative to each heartbeat's own call time, not relative to the
original lease, so repeated heartbeats can push it beyond
original lease + maximum visibility timeout. -/
theorem C2_heartbeat_deadline_bound (o : MarQSOptions) (s : Store) (nowMs : Int)
    (messageId : String) (seconds v : Int)
    (h : zscore (MarQS.heartbeatMessage o s nowMs messageId seconds).visibility
      messageId = some v) :
    v ≤ max ((zscore s.visibility messageId).getD 0) (nowMs + visibilityTimeoutInMs o) := by
  simp only [MarQS.heartbeatMessage, heartbeatMessage] at h
  by_cases hg : ((zscore s.visibility messageId).getD 0 == 0) = true
  · rw [if_pos hg] at h
    rw [h]
    simp
  · rw [if_neg hg] at h
    simp only [Store.visibility] at h
    rw [zscore_zadd_self] at h
    have hv : v = min ((zscore s.visibility messageId).getD 0 + seconds * 1000 * 1000)
        (nowMs + visibilityTimeoutInMs o) := by
      exact (Option.some_inj.mp h).symm
    rw [hv]
    exact le_trans (min_le_right _ _) (le_max_right _ _)

/-- C2 (witness): the amended bound at a concrete heartbeat. -/
theorem C2_heartbeat_deadline_bound_witness :
    zscore (MarQS.heartbeatMessage testOptions inFlightState 250 "a" 1).visibility "a" =
        some 350 ∧
      (350 : Int) ≤ max ((zscore inFlightState.visibility "a").getD 0)
        (250 + visibilityTimeoutInMs testOptions) :=
  ⟨rfl, C2_heartbeat_deadline_bound testOptions inFlightState 250 "a" 1 350 rfl⟩

/-! Claim C9. -/

/-- C9: a message id present in the visibility ZSET with score exactly 0
is treated as absent by both the nack script and the heartbeat script:
each is a complete no-op, because the tonumber(ZSCORE) or 0 guard reads
0 both for a missing member and for a member whose score is 0. -/
theorem C9_zero_score_noop (s : Store) (messageId : String)
    (h : zscore s.visibility messageId = some 0)
    (mk cq pq ck ek ok cqn : String) (ct ms milli maxv : Int) :
    nackMessage s mk cq pq ck ek ok cqn messageId ct ms = s ∧
      heartbeatMessage s messageId milli maxv = s := by
  constructor
  · simp only [nackMessage, h]
    simp
  · simp only [heartbeatMessage, h]
    simp

/-- C9 (witness): the no-ops at a concrete zero-score store. -/
theorem C9_zero_score_noop_witness :
    zscore zeroScoreState.visibility "a" = some 0 ∧
      (nackMessage zeroScoreState "mk" "cq" "pq" "ck" "ek" "ok" "cqn" "a" 5 7 =
          zeroScoreState ∧
        heartbeatMessage zeroScoreState "a" 30000 999 = zeroScoreState) :=
  ⟨rfl, C9_zero_score_noop zeroScoreState "a" rfl "mk" "cq" "pq" "ck" "ek" "ok" "cqn"
    5 7 30000 999⟩

/-! Claim C10. -/

/-- A store with a stale visibility entry and concurrency-set entry for
message a whose body is present but unparsable. -/
def staleState : Store :=
  { emptyStore with
    messages := [("message:a", Body.invalid)]
    visibility := [("a", 5)]
    sets := [("cc:q", ["a"])] }

/-- C10: when the stored body for a message id is absent or fails to
parse, the broker operations acknowledgeMessage, nackMessage and
replaceMessage return without invoking any script and leave the entire
store unchanged; in particular stale occurrences of the id in the
visibility ZSET or the concurrency sets are not cleaned up. -/
theorem C10_missing_body_noop (keys : MarQSKeyProducer) (s : Store) (messageId : String)
    (h : MarQS.readMessage keys s messageId = none)
    (messageData : List (String × String)) (timestamp : Option Int) (nowMs retryAt : Int) :
    MarQS.acknowledgeMessage keys s messageId = s ∧
      MarQS.nackMessage keys s messageId nowMs retryAt = s ∧
      MarQS.replaceMessage keys s messageId messageData timestamp nowMs = s := by
  refine ⟨?_, ?_, ?_⟩
  · simp only [MarQS.acknowledgeMessage, h]
  · simp only [MarQS.nackMessage, h]
  · simp only [MarQS.replaceMessage, h]

/-- C10 (witness): the three no-ops on a concrete store holding an
unparsable body and stale visibility and concurrency entries. -/
theorem C10_missing_body_noop_witness :
    MarQS.readMessage testKeys staleState "a" = none ∧
      (MarQS.acknowledgeMessage testKeys staleState "a" = staleState ∧
        MarQS.nackMessage testKeys staleState "a" 100 200 = staleState ∧
        MarQS.replaceMessage testKeys staleState "a" [("x", "2")] none 100 = staleState) :=
  ⟨rfl, C10_missing_body_noop testKeys staleState "a" rfl [("x", "2")] none 100 200⟩

/-! Claim C7. -/

lemma zMin_zadd_isSome (z : ZSet) (sc : Int) (m : String) :
    (zMin (zadd z sc m)).isSome = true :=
  zMin_cons_isSome _ _

lemma nackMessage_run_visibility (s : Store) (mk cq pq ck ek ok cqn mid : String)
    (ct ms : Int) (h : ((zscore s.visibility mid).getD 0 == 0) = false) :
    (nackMessage s mk cq pq ck ek ok cqn mid ct ms).visibility =
      zrem s.visibility mid := by
  simp only [nackMessage, h]
  rw [if_neg Bool.false_ne_true]
  split
  all_goals simp

lemma nackMessage_run_sets (s : Store) (mk cq pq ck ek ok cqn mid : String)
    (ct ms : Int) (h : ((zscore s.visibility mid).getD 0 == 0) = false)
    (k : String) (hk : k = ck ∨ k = ek ∨ k = ok) :
    mid ∉ getS (nackMessage s mk cq pq ck ek ok cqn mid ct ms) k := by
  simp only [nackMessage, h]
  rw [if_neg Bool.false_ne_true]
  split
  all_goals
    simp only [getS_putZ, getS_setVisibility]
    rcases hk with rfl | rfl | rfl
    · exact not_mem_getS_putS_srem _ _ _ _ (Or.inr (not_mem_getS_putS_srem _ _ _ _
        (Or.inr (not_mem_getS_putS_srem _ _ _ _ (Or.inl rfl)))))
    · exact not_mem_getS_putS_srem _ _ _ _ (Or.inr (not_mem_getS_putS_srem _ _ _ _
        (Or.inl rfl)))
    · exact not_mem_getS_putS_srem _ _ _ _ (Or.inl rfl)

lemma nackMessage_run_child (s : Store) (mk cq pq ck ek ok cqn mid : String)
    (ct ms : Int) (h : ((zscore s.visibility mid).getD 0 == 0) = false)
    (hkey : cq ≠ pq) :
    zscore (getZ (nackMessage s mk cq pq ck ek ok cqn mid ct ms) cq) mid = some ms := by
  simp only [nackMessage, h]
  rw [if_neg Bool.false_ne_true]
  split
  all_goals rw [getZ_putZ_ne _ _ _ _ hkey, getZ_putZ_self, zscore_zadd_self]

/-- C7 (counterexample): the nack script is a complete no-op on a store
in which the id IS present in the visibility ZSET (with score 0), so
"no-op exactly when the id is not present in the visibility ZSET"
fails. -/
theorem C7_nack_noop_counterexample :
    (zscore zeroScoreState.visibility "a").isSome = true ∧
      nackMessage zeroScoreState "mk" "q" "p" "cc" "ecc" "occ" "q" "a" 100 50 =
        zeroScoreState :=
  ⟨rfl, rfl⟩

/-- C7 (amended): the nack script is a no-op exactly when
tonumber(ZSCORE(visibility, id)) or 0 reads 0 - that is, when the id is
absent from the visibility ZSET or present with score exactly 0. When
the id is present with nonzero score, the script removes it from the
visibility ZSET and from all three current-concurrency sets and
re-inserts it into the child queue ZSET at the supplied newScoreMs
(which is unconstrained, so it may lie in the future). -/
theorem C7_nack_guard (s : Store) (mk cq pq ck ek ok cqn mid : String) (ct ms : Int)
    (hkey : cq ≠ pq) :
    ((zscore s.visibility mid).getD 0 = 0 →
      nackMessage s mk cq pq ck ek ok cqn mid ct ms = s) ∧
    ((zscore s.visibility mid).getD 0 ≠ 0 →
      nackMessage s mk cq pq ck ek ok cqn mid ct ms ≠ s ∧
      zscore (nackMessage s mk cq pq ck ek ok cqn mid ct ms).visibility mid = none ∧
      mid ∉ getS (nackMessage s mk cq pq ck ek ok cqn mid ct ms) ck ∧
      mid ∉ getS (nackMessage s mk cq pq ck ek ok cqn mid ct ms) ek ∧
      mid ∉ getS (nackMessage s mk cq pq ck ek ok cqn mid ct ms) ok ∧
      zscore (getZ (nackMessage s mk cq pq ck ek ok cqn mid ct ms) cq) mid = some ms) := by
  constructor
  · intro h
    simp [nackMessage, h]
  · intro h
    have hb : ((zscore s.visibility mid).getD 0 == 0) = false := by simp [h]
    have hvis := nackMessage_run_visibility s mk cq pq ck ek ok cqn mid ct ms hb
    refine ⟨?_, ?_, ?_, ?_, ?_, ?_⟩
    · intro heq
      have hsame : zscore (zrem s.visibility mid) mid = zscore s.visibility mid := by
        rw [← hvis, heq]
      rw [zscore_zrem_self] at hsame
      rcases hz : zscore s.visibility mid with _ | c
      · rw [hz] at h
        simp at h
      · rw [hz] at hsame
        cases hsame
    · rw [hvis, zscore_zrem_self]
    · exact nackMessage_run_sets s mk cq pq ck ek ok cqn mid ct ms hb ck (Or.inl rfl)
    · exact nackMessage_run_sets s mk cq pq ck ek ok cqn mid ct ms hb ek
        (Or.inr (Or.inl rfl))
    · exact nackMessage_run_sets s mk cq pq ck ek ok cqn mid ct ms hb ok
        (Or.inr (Or.inr rfl))
    · exact nackMessage_run_child s mk cq pq ck ek ok cqn mid ct ms hb hkey

/-- A store with message a in flight: visibility score 200 and all three
concurrency sets holding it. -/
def nackReadyState : Store :=
  { emptyStore with
    visibility := [("a", 200)]
    sets := [("cc", ["a"]), ("ecc", ["a"]), ("occ", ["a"])] }

/-- C7 (witness): the amended nack behaviour at a concrete in-flight
store. -/
theorem C7_nack_guard_witness :
    ("q" : String) ≠ "p" ∧ (zscore nackReadyState.visibility "a").getD 0 ≠ 0 ∧
      (nackMessage nackReadyState "mk" "q" "p" "cc" "ecc" "occ" "q" "a" 300 400 ≠
          nackReadyState ∧
        zscore (nackMessage nackReadyState "mk" "q" "p" "cc" "ecc" "occ" "q" "a"
          300 400).visibility "a" = none ∧
        "a" ∉ getS (nackMessage nackReadyState "mk" "q" "p" "cc" "ecc" "occ" "q" "a"
          300 400) "cc" ∧
        "a" ∉ getS (nackMessage nackReadyState "mk" "q" "p" "cc" "ecc" "occ" "q" "a"
          300 400) "ecc" ∧
        "a" ∉ getS (nackMessage nackReadyState "mk" "q" "p" "cc" "ecc" "occ" "q" "a"
          300 400) "occ" ∧
        zscore (getZ (nackMessage nackReadyState "mk" "q" "p" "cc" "ecc" "occ" "q" "a"
          300 400) "q") "a" = some 400) :=
  ⟨by decide, by decide,
    (C7_nack_guard nackReadyState "mk" "q" "p" "cc" "ecc" "occ" "q" "a" 300 400
      (by decide)).2 (by decide)⟩

/-! Claim C5. -/

/-- C5: the dequeue script checks the org, env and queue concurrency
ceilings in that order, each comparing the current set's cardinality
against the limit key's value (or the supplied default when the key is
absent); when any of the three checks fails it returns none and leaves
every store structure unchanged - no message is moved and no counter is
incremented. -/
theorem C5_concurrency_backpressure (s : Store)
    (cq pq clk elk olk cck eck ock cqn : String) (vt ct dq de dorg : Int)
    (h : scard (getS s ock) ≥ getLimit s olk dorg ∨
      scard (getS s eck) ≥ getLimit s elk de ∨
      scard (getS s cck) ≥ getLimit s clk dq) :
    dequeueMessage s cq pq clk elk olk cck eck ock cqn vt ct dq de dorg = (none, s) := by
  simp only [dequeueMessage]
  rcases h with h | h | h
  · rw [if_pos h]
  · by_cases h1 : scard (getS s ock) ≥ getLimit s olk dorg
    · rw [if_pos h1]
    · rw [if_neg h1, if_pos h]
  · by_cases h1 : scard (getS s ock) ≥ getLimit s olk dorg
    · rw [if_pos h1]
    · rw [if_neg h1]
      by_cases h2 : scard (getS s eck) ≥ getLimit s elk de
      · rw [if_pos h2]
      · rw [if_neg h2, if_pos h]

/-- A store in which the org concurrency limit key is set to 0, so the
org ceiling check always fails. -/
def orgBlockedState : Store :=
  { emptyStore with
    zsets := [("q", [("a", 0)])]
    limits := [("ol", 0)] }

/-- C5 (witness): the blocked dequeue at a concrete store with a due
message but an org limit of 0. -/
theorem C5_concurrency_backpressure_witness :
    scard (getS orgBlockedState "occ") ≥ getLimit orgBlockedState "ol" 10 ∧
      dequeueMessage orgBlockedState "q" "p" "cl" "el" "ol" "cc" "ecc" "occ" "q"
        100 100 10 10 10 = (none, orgBlockedState) :=
  ⟨by decide,
    C5_concurrency_backpressure orgBlockedState "q" "p" "cl" "el" "ol" "cc" "ecc" "occ"
      "q" 100 100 10 10 10 (Or.inl (by decide))⟩

/-! Claim C4. -/

lemma mem_getS_putS_sadd (s : Store) (k k' mid : String)
    (h : k = k' ∨ mid ∈ getS s k) :
    mid ∈ getS (putS s k' (sadd (getS s k') mid)) k := by
  by_cases hk : k = k'
  · subst hk
    rw [getS_putS_self]
    exact mem_sadd_self _ _
  · rw [getS_putS_ne _ _ _ _ hk]
    rcases h with h | h
    · exact absurd h hk
    · exact h

lemma dequeueMessage_run_none (s : Store)
    (cq pq clk elk olk cck eck ock cqn : String) (vt ct dq de dorg : Int)
    (hm : zMinDue (getZ s cq) ct = none) :
    dequeueMessage s cq pq clk elk olk cck eck ock cqn vt ct dq de dorg = (none, s) := by
  simp only [dequeueMessage, hm]
  by_cases h1 : scard (getS s ock) ≥ getLimit s olk dorg
  · rw [if_pos h1]
  · rw [if_neg h1]
    by_cases h2 : scard (getS s eck) ≥ getLimit s elk de
    · rw [if_pos h2]
    · rw [if_neg h2]
      by_cases h3 : scard (getS s cck) ≥ getLimit s clk dq
      · rw [if_pos h3]
      · rw [if_neg h3]

lemma dequeueMessage_run_result (s : Store)
    (cq pq clk elk olk cck eck ock cqn : String) (vt ct dq de dorg : Int)
    (mid : String) (sc : Int)
    (horg : scard (getS s ock) < getLimit s olk dorg)
    (henv : scard (getS s eck) < getLimit s elk de)
    (hqc : scard (getS s cck) < getLimit s clk dq)
    (hm : zMinDue (getZ s cq) ct = some (mid, sc)) :
    (dequeueMessage s cq pq clk elk olk cck eck ock cqn vt ct dq de dorg).1 =
      some (mid, sc) := by
  simp only [dequeueMessage, hm]
  rw [if_neg (not_le.mpr horg), if_neg (not_le.mpr henv), if_neg (not_le.mpr hqc)]

lemma dequeueMessage_run_child (s : Store)
    (cq pq clk elk olk cck eck ock cqn : String) (vt ct dq de dorg : Int)
    (mid : String) (sc : Int)
    (horg : scard (getS s ock) < getLimit s olk dorg)
    (henv : scard (getS s eck) < getLimit s elk de)
    (hqc : scard (getS s cck) < getLimit s clk dq)
    (hm : zMinDue (getZ s cq) ct = some (mid, sc))
    (hkey : cq ≠ pq) :
    zscore (getZ (dequeueMessage s cq pq clk elk olk cck eck ock cqn vt ct dq de
      dorg).2 cq) mid = none := by
  simp only [dequeueMessage, hm]
  rw [if_neg (not_le.mpr horg), if_neg (not_le.mpr henv), if_neg (not_le.mpr hqc)]
  split
  all_goals
    rw [getZ_putZ_ne _ _ _ _ hkey, getZ_putS, getZ_putS, getZ_putS, getZ_setVisibility,
      getZ_putZ_self, zscore_zrem_self]

lemma dequeueMessage_run_visibility (s : Store)
    (cq pq clk elk olk cck eck ock cqn : String) (vt ct dq de dorg : Int)
    (mid : String) (sc : Int)
    (horg : scard (getS s ock) < getLimit s olk dorg)
    (henv : scard (getS s eck) < getLimit s elk de)
    (hqc : scard (getS s cck) < getLimit s clk dq)
    (hm : zMinDue (getZ s cq) ct = some (mid, sc)) :
    zscore ((dequeueMessage s cq pq clk elk olk cck eck ock cqn vt ct dq de
      dorg).2).visibility mid = some (ct + vt) := by
  simp only [dequeueMessage, hm]
  rw [if_neg (not_le.mpr horg), if_neg (not_le.mpr henv), if_neg (not_le.mpr hqc)]
  split
  all_goals simp

lemma dequeueMessage_run_sets (s : Store)
    (cq pq clk elk olk cck eck ock cqn : String) (vt ct dq de dorg : Int)
    (mid : String) (sc : Int)
    (horg : scard (getS s ock) < getLimit s olk dorg)
    (henv : scard (getS s eck) < getLimit s elk de)
    (hqc : scard (getS s cck) < getLimit s clk dq)
    (hm : zMinDue (getZ s cq) ct = some (mid, sc))
    (k : String) (hk : k = cck ∨ k = eck ∨ k = ock) :
    mid ∈ getS (dequeueMessage s cq pq clk elk olk cck eck ock cqn vt ct dq de
      dorg).2 k := by
  simp only [dequeueMessage, hm]
  rw [if_neg (not_le.mpr horg), if_neg (not_le.mpr henv), if_neg (not_le.mpr hqc)]
  split
  all_goals
    simp only [getS_putZ, getS_setVisibility]
    rcases hk with rfl | rfl | rfl
    · exact mem_getS_putS_sadd _ _ _ _ (Or.inr (mem_getS_putS_sadd _ _ _ _
        (Or.inr (mem_getS_putS_sadd _ _ _ _ (Or.inl rfl)))))
    · exact mem_getS_putS_sadd _ _ _ _ (Or.inr (mem_getS_putS_sadd _ _ _ _
        (Or.inl rfl)))
    · exact mem_getS_putS_sadd _ _ _ _ (Or.inl rfl)

/-- C4: when none of the three concurrency ceilings blocks it, the
dequeue script returns a member of the child queue ZSET of minimal
score among those with score ≤ nowMs, or none when no member is due
(so it never returns a message whose score exceeds nowMs); on success
it removes that id from the child queue, adds it to the visibility
ZSET at score nowMs + visibilityTimeoutMs, and adds it to the queue,
env and org current-concurrency sets. -/
theorem C4_dequeue_oldest_due (s : Store)
    (cq pq clk elk olk cck eck ock cqn : String) (vt ct dq de dorg : Int)
    (horg : scard (getS s ock) < getLimit s olk dorg)
    (henv : scard (getS s eck) < getLimit s elk de)
    (hqc : scard (getS s cck) < getLimit s clk dq)
    (hkey : cq ≠ pq) :
    ((dequeueMessage s cq pq clk elk olk cck eck ock cqn vt ct dq de dorg).1 = none →
      ∀ p ∈ getZ s cq, ¬ (p.2 ≤ ct)) ∧
    (∀ mid sc,
      (dequeueMessage s cq pq clk elk olk cck eck ock cqn vt ct dq de dorg).1 =
          some (mid, sc) →
        (mid, sc) ∈ getZ s cq ∧ sc ≤ ct ∧
        (∀ p ∈ getZ s cq, p.2 ≤ ct → sc ≤ p.2) ∧
        zscore (getZ (dequeueMessage s cq pq clk elk olk cck eck ock cqn vt ct dq de
          dorg).2 cq) mid = none ∧
        zscore ((dequeueMessage s cq pq clk elk olk cck eck ock cqn vt ct dq de
          dorg).2).visibility mid = some (ct + vt) ∧
        mid ∈ getS (dequeueMessage s cq pq clk elk olk cck eck ock cqn vt ct dq de
          dorg).2 cck ∧
        mid ∈ getS (dequeueMessage s cq pq clk elk olk cck eck ock cqn vt ct dq de
          dorg).2 eck ∧
        mid ∈ getS (dequeueMessage s cq pq clk elk olk cck eck ock cqn vt ct dq de
          dorg).2 ock) := by
  constructor
  · intro h p hp hple
    rcases hm : zMinDue (getZ s cq) ct with _ | ms
    · have := zMinP_eq_none hm p hp
      simp [hple] at this
    · rcases ms with ⟨m0, s0⟩
      rw [dequeueMessage_run_result s cq pq clk elk olk cck eck ock cqn vt ct dq de
        dorg m0 s0 horg henv hqc hm] at h
      cases h
  · intro mid sc h
    rcases hm : zMinDue (getZ s cq) ct with _ | ms
    · rw [dequeueMessage_run_none s cq pq clk elk olk cck eck ock cqn vt ct dq de
        dorg hm] at h
      cases h
    · rcases ms with ⟨m0, s0⟩
      rw [dequeueMessage_run_result s cq pq clk elk olk cck eck ock cqn vt ct dq de
        dorg m0 s0 horg henv hqc hm] at h
      obtain ⟨rfl, rfl⟩ : m0 = mid ∧ s0 = sc := by
        have := Option.some_inj.mp h
        exact ⟨congrArg Prod.fst this, congrArg Prod.snd this⟩
      obtain ⟨hmem, hdue⟩ := zMinP_mem_sat hm
      refine ⟨hmem, of_decide_eq_true hdue, ?_, ?_, ?_, ?_, ?_, ?_⟩
      · intro p hp hple
        exact zMinP_le hm p hp (decide_eq_true hple)
      · exact dequeueMessage_run_child s cq pq clk elk olk cck eck ock cqn vt ct dq de
          dorg m0 s0 horg henv hqc hm hkey
      · exact dequeueMessage_run_visibility s cq pq clk elk olk cck eck ock cqn vt ct
          dq de dorg m0 s0 horg henv hqc hm
      · exact dequeueMessage_run_sets s cq pq clk elk olk cck eck ock cqn vt ct dq de
          dorg m0 s0 horg henv hqc hm cck (Or.inl rfl)
      · exact dequeueMessage_run_sets s cq pq clk elk olk cck eck ock cqn vt ct dq de
          dorg m0 s0 horg henv hqc hm eck (Or.inr (Or.inl rfl))
      · exact dequeueMessage_run_sets s cq pq clk elk olk cck eck ock cqn vt ct dq de
          dorg m0 s0 horg henv hqc hm ock (Or.inr (Or.inr rfl))

/-- C4 (witness): the success case at a concrete store with one due
message and no blocking ceiling. -/
theorem C4_dequeue_oldest_due_witness :
    scard (getS queuedState "occ") < getLimit queuedState "ol" 10 ∧
      scard (getS queuedState "ecc") < getLimit queuedState "el" 10 ∧
      scard (getS queuedState "cc") < getLimit queuedState "cl" 10 ∧
      ("q" : String) ≠ "p" ∧
      (((dequeueMessage queuedState "q" "p" "cl" "el" "ol" "cc" "ecc" "occ" "q"
          100 100 10 10 10).1 = none → ∀ p ∈ getZ queuedState "q", ¬ (p.2 ≤ 100)) ∧
        (∀ mid sc,
          (dequeueMessage queuedState "q" "p" "cl" "el" "ol" "cc" "ecc" "occ" "q"
              100 100 10 10 10).1 = some (mid, sc) →
            (mid, sc) ∈ getZ queuedState "q" ∧ sc ≤ 100 ∧
            (∀ p ∈ getZ queuedState "q", p.2 ≤ 100 → sc ≤ p.2) ∧
            zscore (getZ (dequeueMessage queuedState "q" "p" "cl" "el" "ol" "cc" "ecc"
              "occ" "q" 100 100 10 10 10).2 "q") mid = none ∧
            zscore ((dequeueMessage queuedState "q" "p" "cl" "el" "ol" "cc" "ecc"
              "occ" "q" 100 100 10 10 10).2).visibility mid = some (100 + 100) ∧
            mid ∈ getS (dequeueMessage queuedState "q" "p" "cl" "el" "ol" "cc" "ecc"
              "occ" "q" 100 100 10 10 10).2 "cc" ∧
            mid ∈ getS (dequeueMessage queuedState "q" "p" "cl" "el" "ol" "cc" "ecc"
              "occ" "q" 100 100 10 10 10).2 "ecc" ∧
            mid ∈ getS (dequeueMessage queuedState "q" "p" "cl" "el" "ol" "cc" "ecc"
              "occ" "q" 100 100 10 10 10).2 "occ")) :=
  ⟨by decide, by decide, by decide, by decide,
    C4_dequeue_oldest_due queuedState "q" "p" "cl" "el" "ol" "cc" "ecc" "occ" "q"
      100 100 10 10 10 (by decide) (by decide) (by decide) (by decide)⟩

/-! Claim C6. -/

/-- Parent-child agreement for one child queue: the parent ZSET entry
for childName carries the minimum score currently in the child ZSET,
and childName is absent from the parent exactly when the child is empty
(zMin of an empty set is none). -/
def parentScoreMatchesChild (s : Store) (childKey parentKey childName : String) : Prop :=
  zscore (getZ s parentKey) childName = (zMin (getZ s childKey)).map (fun p => p.2)

lemma rebalance_matches_none (S : Store) (ck pk cn : String) (hkey : ck ≠ pk)
    (he : zMin (getZ S ck) = none) :
    parentScoreMatchesChild (putZ S pk (zrem (getZ S pk) cn)) ck pk cn := by
  unfold parentScoreMatchesChild
  rw [getZ_putZ_self, getZ_putZ_ne _ _ _ _ hkey, he, zscore_zrem_self]
  rfl

lemma rebalance_matches_some (S : Store) (ck pk cn : String) (e : String × Int)
    (hkey : ck ≠ pk) (he : zMin (getZ S ck) = some e) :
    parentScoreMatchesChild (putZ S pk (zadd (getZ S pk) e.2 cn)) ck pk cn := by
  unfold parentScoreMatchesChild
  rw [getZ_putZ_self, getZ_putZ_ne _ _ _ _ hkey, he, zscore_zadd_self]
  rfl

/-- C6: after the enqueue script, after a successful dequeue script, and
after a non-no-op nack script, the parent queue ZSET entry for the
mutated child queue equals the minimum score currently present in that
child queue, and the child is absent from the parent exactly when the
child queue is empty. (A dequeue that returns none and a nack whose
visibility guard reads 0 mutate no child queue.) -/
theorem C6_parent_rebalance :
    (∀ (s : Store) (q par mk qn mid : String) (b : Body) (sc : Int), q ≠ par →
      parentScoreMatchesChild (enqueueMessage s q par mk qn mid b sc) q par qn) ∧
    (∀ (s : Store) (cq pq clk elk olk cck eck ock cqn : String)
      (vt ct dq de dorg : Int) (r : String × Int), cq ≠ pq →
      (dequeueMessage s cq pq clk elk olk cck eck ock cqn vt ct dq de dorg).1 = some r →
      parentScoreMatchesChild
        (dequeueMessage s cq pq clk elk olk cck eck ock cqn vt ct dq de dorg).2
        cq pq cqn) ∧
    (∀ (s : Store) (mk cq pq ck ek ok cqn mid : String) (ct ms : Int), cq ≠ pq →
      (zscore s.visibility mid).getD 0 ≠ 0 →
      parentScoreMatchesChild (nackMessage s mk cq pq ck ek ok cqn mid ct ms)
        cq pq cqn) := by
  refine ⟨?_, ?_, ?_⟩
  · intro s q par mk qn mid b sc hkey
    simp only [enqueueMessage]
    split
    · next he => exact rebalance_matches_none _ _ _ _ hkey he
    · next e he => exact rebalance_matches_some _ _ _ _ e hkey he
  · intro s cq pq clk elk olk cck eck ock cqn vt ct dq de dorg r hkey hr
    simp only [dequeueMessage] at hr ⊢
    by_cases h1 : scard (getS s ock) ≥ getLimit s olk dorg
    · rw [if_pos h1] at hr
      cases hr
    · rw [if_neg h1] at hr ⊢
      by_cases h2 : scard (getS s eck) ≥ getLimit s elk de
      · rw [if_pos h2] at hr
        cases hr
      · rw [if_neg h2] at hr ⊢
        by_cases h3 : scard (getS s cck) ≥ getLimit s clk dq
        · rw [if_pos h3] at hr
          cases hr
        · rw [if_neg h3] at hr ⊢
          rcases hm : zMinDue (getZ s cq) ct with _ | ms
          · rw [hm] at hr
            cases hr
          · rcases ms with ⟨m0, s0⟩
            simp only [hm]
            split
            · next he => exact rebalance_matches_none _ _ _ _ hkey he
            · next e he => exact rebalance_matches_some _ _ _ _ e hkey he
  · intro s mk cq pq ck ek ok cqn mid ct ms hkey hg
    have hb : ((zscore s.visibility mid).getD 0 == 0) = false := by simp [hg]
    simp only [nackMessage, hb]
    rw [if_neg Bool.false_ne_true]
    split
    · next he => exact rebalance_matches_none _ _ _ _ hkey he
    · next e he => exact rebalance_matches_some _ _ _ _ e hkey he

/-- C6 (witness): the three rebalanced states at concrete inputs - an
enqueue into queue q, a successful dequeue from queuedState, and a nack
of the in-flight message of nackReadyState. -/
theorem C6_parent_rebalance_witness :
    (("q" : String) ≠ "p" ∧
      parentScoreMatchesChild
        (enqueueMessage emptyStore "q" "p" "message:a" "q" "a" Body.invalid 7) "q" "p" "q") ∧
    (("q" : String) ≠ "p" ∧
      (dequeueMessage queuedState "q" "p" "cl" "el" "ol" "cc" "ecc" "occ" "q"
        100 100 10 10 10).1 = some ("a", 0) ∧
      parentScoreMatchesChild
        (dequeueMessage queuedState "q" "p" "cl" "el" "ol" "cc" "ecc" "occ" "q"
          100 100 10 10 10).2 "q" "p" "q") ∧
    (("q" : String) ≠ "p" ∧
      (zscore nackReadyState.visibility "a").getD 0 ≠ 0 ∧
      parentScoreMatchesChild
        (nackMessage nackReadyState "mk" "q" "p" "cc" "ecc" "occ" "q" "a" 300 400)
        "q" "p" "q") :=
  ⟨⟨by decide, C6_parent_rebalance.1 emptyStore "q" "p" "message:a" "q" "a"
      Body.invalid 7 (by decide)⟩,
    ⟨by decide, by decide, C6_parent_rebalance.2.1 queuedState "q" "p" "cl" "el" "ol"
      "cc" "ecc" "occ" "q" 100 100 10 10 10 ("a", 0) (by decide) (by decide)⟩,
    ⟨by decide, by decide, C6_parent_rebalance.2.2 nackReadyState "mk" "q" "p" "cc"
      "ecc" "occ" "q" "a" 300 400 (by decide) (by decide)⟩⟩

/-! Claim C8. -/

lemma mem_zInsertSorted (p : String × Int) (l : List (String × Int)) (a : String × Int) :
    a ∈ zInsertSorted p l ↔ a = p ∨ a ∈ l := by
  induction l with
  | nil => simp [zInsertSorted]
  | cons q t ih =>
    simp only [zInsertSorted]
    split
    · simp only [List.mem_cons]
      try tauto
    · simp only [List.mem_cons, ih]
      try tauto

lemma mem_zSorted (z : ZSet) (a : String × Int) : a ∈ zSorted z ↔ a ∈ z := by
  induction z with
  | nil => simp [zSorted]
  | cons p t ih =>
    have hz : zSorted (p :: t) = zInsertSorted p (zSorted t) := rfl
    rw [hz, mem_zInsertSorted, ih, List.mem_cons]

lemma mem_zrangebyscore (z : ZSet) (lo hi : Int) (n : Nat) (m : String)
    (hm : m ∈ zrangebyscore z lo hi n) :
    ∃ c, (m, c) ∈ z ∧ lo ≤ c ∧ c ≤ hi := by
  unfold zrangebyscore at hm
  obtain ⟨p, hp, hpm⟩ := List.mem_map.mp hm
  have hf := List.mem_filter.mp (List.mem_of_mem_take hp)
  obtain ⟨hlo, hhi⟩ : lo ≤ p.2 ∧ p.2 ≤ hi := by
    have := hf.2
    simp only [Bool.and_eq_true, decide_eq_true_eq] at this
    exact this
  refine ⟨p.2, ?_, hlo, hhi⟩
  have := (mem_zSorted _ _).mp hf.1
  rw [← hpm]
  simpa [Prod.mk.eta] using this

lemma length_zrangebyscore_le (z : ZSet) (lo hi : Int) (n : Nat) :
    (zrangebyscore z lo hi n).length ≤ n := by
  unfold zrangebyscore
  rw [List.length_map]
  exact List.length_take_le _ _

/-- C8: each requeuer cycle folds the step function over the ids read
from the visibility ZSET by a range-by-score over [0, nowMs] limited to
10; every id so read is in the visibility ZSET with a score in
[0, nowMs]; for an id whose body is missing or unparsable the step
removes the id from the visibility ZSET and changes nothing else; for
an id with a parsable body the step invokes the nack script with the
payload's queue, parent and message id, and with messageScore equal to
the payload's original enqueue timestamp. -/
theorem C8_requeuer_cycle (keys : MarQSKeyProducer) (s : Store) (nowMs : Int) :
    requeueVisibleMessages keys s nowMs =
        (zrangebyscore s.visibility 0 nowMs 10).foldl (requeueStep keys nowMs) s ∧
      (zrangebyscore s.visibility 0 nowMs 10).length ≤ 10 ∧
      (∀ m ∈ zrangebyscore s.visibility 0 nowMs 10,
        ∃ c, (m, c) ∈ s.visibility ∧ 0 ≤ c ∧ c ≤ nowMs) ∧
      (∀ (st : Store) (m : String), getBody st (keys.messageKey m) = none →
        requeueStep keys nowMs st m = { st with visibility := zrem st.visibility m }) ∧
      (∀ (st : Store) (m : String), getBody st (keys.messageKey m) = some Body.invalid →
        requeueStep keys nowMs st m = { st with visibility := zrem st.visibility m }) ∧
      (∀ (st : Store) (m : String) (p : MessagePayload),
        getBody st (keys.messageKey m) = some (Body.valid p) →
        requeueStep keys nowMs st m =
          nackMessage st (keys.messageKey m) p.queue p.parentQueue
            (keys.currentConcurrencyKeyFromQueue p.queue)
            (keys.envCurrentConcurrencyKeyFromQueue p.queue)
            (keys.orgCurrentConcurrencyKeyFromQueue p.queue)
            p.queue p.messageId nowMs p.timestamp) := by
  refine ⟨rfl, length_zrangebyscore_le _ _ _ _, ?_, ?_, ?_, ?_⟩
  · intro m hm
    exact mem_zrangebyscore _ _ _ _ _ hm
  · intro st m h
    simp only [requeueStep, h]
  · intro st m h
    simp only [requeueStep, h]
  · intro st m p h
    simp only [requeueStep, h]

/-- The payload of message b used in the requeuer witness. -/
def bPayload : MessagePayload :=
  { version := "1", data := [], queue := "q", concurrencyKey := none, timestamp := 5,
    messageId := "b", parentQueue := "p" }

/-- A store with two expired ids in the visibility ZSET: a without a
body and b with a parsable body. -/
def requeueState : Store :=
  { emptyStore with
    messages := [("message:b", Body.valid bPayload)]
    visibility := [("a", 10), ("b", 20)] }

/-- C8 (witness): the cycle behaviour at a concrete store. -/
theorem C8_requeuer_cycle_witness :
    ("a" ∈ zrangebyscore requeueState.visibility 0 100 10 ∧
      ∃ c, ("a", c) ∈ requeueState.visibility ∧ 0 ≤ c ∧ c ≤ 100) ∧
    (getBody requeueState (testKeys.messageKey "a") = none ∧
      requeueStep testKeys 100 requeueState "a" =
        { requeueState with visibility := zrem requeueState.visibility "a" }) ∧
    (getBody requeueState (testKeys.messageKey "b") = some (Body.valid bPayload) ∧
      requeueStep testKeys 100 requeueState "b" =
        nackMessage requeueState (testKeys.messageKey "b") bPayload.queue
          bPayload.parentQueue
          (testKeys.currentConcurrencyKeyFromQueue bPayload.queue)
          (testKeys.envCurrentConcurrencyKeyFromQueue bPayload.queue)
          (testKeys.orgCurrentConcurrencyKeyFromQueue bPayload.queue)
          bPayload.queue bPayload.messageId 100 bPayload.timestamp) :=
  ⟨⟨by decide, (C8_requeuer_cycle testKeys requeueState 100).2.2.1 "a" (by decide)⟩,
    ⟨rfl, (C8_requeuer_cycle testKeys requeueState 100).2.2.2.1 requeueState "a" rfl⟩,
    ⟨rfl, (C8_requeuer_cycle testKeys requeueState 100).2.2.2.2.2 requeueState "b"
      bPayload rfl⟩⟩

/-! Claim C3. -/

lemma dequeueMessage_messages (s : Store)
    (cq pq clk elk olk cck eck ock cqn : String) (vt ct dq de dorg : Int) :
    ((dequeueMessage s cq pq clk elk olk cck eck ock cqn vt ct dq de
      dorg).2).messages = s.messages := by
  simp only [dequeueMessage]
  split
  · rfl
  · split
    · rfl
    · split
      · rfl
      · split
        · rfl
        · split <;> rfl

lemma callDequeueMessage_messages (keys : MarQSKeyProducer) (o : MarQSOptions)
    (s : Store) (mq pq : String) (now : Int) :
    ((MarQS.callDequeueMessage keys o s mq pq now).2).messages = s.messages := by
  simp only [MarQS.callDequeueMessage]
  exact dequeueMessage_messages _ _ _ _ _ _ _ _ _ _ _ _ _ _ _

lemma dequeueMessageInEnv_messages (keys : MarQSKeyProducer) (o : MarQSOptions)
    (s : Store) (envId : String) (cqo : Option String) (now : Int) :
    ((MarQS.dequeueMessageInEnv keys o s envId cqo now).2).messages = s.messages := by
  simp only [MarQS.dequeueMessageInEnv]
  split
  · rfl
  · split
    · exact callDequeueMessage_messages _ _ _ _ _ _
    · split
      · exact callDequeueMessage_messages _ _ _ _ _ _
      · exact callDequeueMessage_messages _ _ _ _ _ _

lemma dequeueMessageInSharedQueue_messages (keys : MarQSKeyProducer) (o : MarQSOptions)
    (s : Store) (cqo : Option String) (now : Int) :
    ((MarQS.dequeueMessageInSharedQueue keys o s cqo now).2).messages = s.messages := by
  simp only [MarQS.dequeueMessageInSharedQueue]
  split
  · rfl
  · split
    · exact callDequeueMessage_messages _ _ _ _ _ _
    · split
      · exact callDequeueMessage_messages _ _ _ _ _ _
      · exact callDequeueMessage_messages _ _ _ _ _ _

lemma dequeueStep_messages (keys : MarQSKeyProducer) (o : MarQSOptions) (s : Store)
    (c : DequeueCall) :
    ((dequeueStep keys o s c).2).messages = s.messages := by
  cases c with
  | fromEnv envId cqo now => exact dequeueMessageInEnv_messages _ _ _ _ _ _
  | fromShared cqo now => exact dequeueMessageInSharedQueue_messages _ _ _ _ _

lemma readMessage_congr (keys : MarQSKeyProducer) (s s' : Store) (mid : String)
    (h : s.messages = s'.messages) :
    MarQS.readMessage keys s mid = MarQS.readMessage keys s' mid := by
  unfold MarQS.readMessage getBody
  rw [h]

lemma dequeueMessageInEnv_result_read (keys : MarQSKeyProducer) (o : MarQSOptions)
    (s : Store) (envId : String) (cqo : Option String) (now : Int)
    (mid : String) (p : MessagePayload)
    (h : (MarQS.dequeueMessageInEnv keys o s envId cqo now).1 = some (mid, p)) :
    MarQS.readMessage keys s mid = some p := by
  cases cqo with
  | none => simp [MarQS.dequeueMessageInEnv] at h
  | some mq =>
    simp only [MarQS.dequeueMessageInEnv] at h
    rcases hr : (MarQS.callDequeueMessage keys o s mq (keys.envSharedQueueKey envId)
        now).1 with _ | ms
    · simp only [hr] at h
      cases h
    · rcases ms with ⟨mid0, sc0⟩
      simp only [hr] at h
      rcases hm : MarQS.readMessage keys
          (MarQS.callDequeueMessage keys o s mq (keys.envSharedQueueKey envId) now).2
          mid0 with _ | msg
      · simp only [hm] at h
        cases h
      · simp only [hm] at h
        obtain ⟨rfl, rfl⟩ : mid0 = mid ∧ msg = p := by
          have := Option.some_inj.mp h
          exact ⟨congrArg Prod.fst this, congrArg Prod.snd this⟩
        rw [readMessage_congr keys s _ mid0
          (callDequeueMessage_messages keys o s mq (keys.envSharedQueueKey envId)
            now).symm]
        exact hm

lemma dequeueMessageInSharedQueue_result_read (keys : MarQSKeyProducer)
    (o : MarQSOptions) (s : Store) (cqo : Option String) (now : Int)
    (mid : String) (p : MessagePayload)
    (h : (MarQS.dequeueMessageInSharedQueue keys o s cqo now).1 = some (mid, p)) :
    MarQS.readMessage keys s mid = some p := by
  cases cqo with
  | none => simp [MarQS.dequeueMessageInSharedQueue] at h
  | some mq =>
    simp only [MarQS.dequeueMessageInSharedQueue] at h
    rcases hr : (MarQS.callDequeueMessage keys o s mq SHARED_QUEUE now).1 with _ | ms
    · simp only [hr] at h
      cases h
    · rcases ms with ⟨mid0, sc0⟩
      simp only [hr] at h
      rcases hm : MarQS.readMessage keys
          (MarQS.callDequeueMessage keys o s mq SHARED_QUEUE now).2 mid0 with _ | msg
      · simp only [hm] at h
        cases h
      · simp only [hm] at h
        obtain ⟨rfl, rfl⟩ : mid0 = mid ∧ msg = p := by
          have := Option.some_inj.mp h
          exact ⟨congrArg Prod.fst this, congrArg Prod.snd this⟩
        rw [readMessage_congr keys s _ mid0
          (callDequeueMessage_messages keys o s mq SHARED_QUEUE now).symm]
        exact hm

lemma dequeueStep_result_read (keys : MarQSKeyProducer) (o : MarQSOptions) (s : Store)
    (c : DequeueCall) (mid : String) (p : MessagePayload)
    (h : (dequeueStep keys o s c).1 = some (mid, p)) :
    MarQS.readMessage keys s mid = some p := by
  cases c with
  | fromEnv envId cqo now => exact dequeueMessageInEnv_result_read _ _ _ _ _ _ _ _ h
  | fromShared cqo now => exact dequeueMessageInSharedQueue_result_read _ _ _ _ _ _ _ h

lemma runDequeues_cons (keys : MarQSKeyProducer) (o : MarQSOptions) (s : Store)
    (c : DequeueCall) (rest : List DequeueCall) :
    (runDequeues keys o s (c :: rest)).2 =
      (dequeueStep keys o s c).1 ::
        (runDequeues keys o (dequeueStep keys o s c).2 rest).2 := rfl

lemma runDequeues_result_read (keys : MarQSKeyProducer) (o : MarQSOptions) :
    ∀ (calls : List DequeueCall) (s : Store) (r : Option (String × MessagePayload)),
      r ∈ (runDequeues keys o s calls).2 → ∀ (mid : String) (p : MessagePayload),
        r = some (mid, p) → MarQS.readMessage keys s mid = some p := by
  intro calls
  induction calls with
  | nil =>
    intro s r hr
    simp [runDequeues] at hr
  | cons c rest ih =>
    intro s r hr mid p hp
    rw [runDequeues_cons] at hr
    rcases List.mem_cons.mp hr with hr | hr
    · subst hr
      exact dequeueStep_result_read keys o s c mid p hp
    · have htail := ih _ r hr mid p hp
      rw [readMessage_congr keys s (dequeueStep keys o s c).2 mid
        (dequeueStep_messages keys o s c).symm]
      exact htail

lemma getBody_enqueueMessage (s : Store) (queue par mk qn mid : String) (b : Body)
    (sc : Int) :
    getBody (enqueueMessage s queue par mk qn mid b sc) mk = some b := by
  simp only [enqueueMessage]
  split <;> simp

lemma readMessage_enqueueMessage (keys : MarQSKeyProducer) (s : Store)
    (envId q mid : String) (d : List (String × String)) (ck : Option String)
    (t : Int) (tc : List (String × String)) :
    MarQS.readMessage keys (MarQS.enqueueMessage keys s envId q mid d ck t tc) mid =
      some (enqueuedPayload keys envId q mid d ck t tc) := by
  simp only [MarQS.enqueueMessage, MarQS.readMessage]
  rw [getBody_enqueueMessage]

lemma contains_eq_false_of_not_mem (l : List String) (a : String) (h : a ∉ l) :
    l.contains a = false := by
  cases hc : l.contains a
  · rfl
  · exact absurd (List.mem_of_elem_eq_true hc) h

lemma find?_key_append (tc rest : List (String × String)) (key : String)
    (h : key ∉ tc.map (fun e => e.1)) :
    (tc ++ rest).find? (fun p => p.1 == key) = rest.find? (fun p => p.1 == key) := by
  induction tc with
  | nil => rfl
  | cons a t ih =>
    simp only [List.map_cons, List.mem_cons] at h
    push_neg at h
    rw [List.cons_append, List.find?_cons_of_neg _ (by simp [Ne.symm h.1]), ih h.2]

lemma find?_key_filter_not_in (tcKeys : List String) (d : List (String × String))
    (key : String) (h : tcKeys.contains key = false) :
    (d.filter (fun p => !(tcKeys.contains p.1))).find? (fun p => p.1 == key) =
      d.find? (fun p => p.1 == key) := by
  induction d with
  | nil => rfl
  | cons a t ih =>
    by_cases hk : a.1 = key
    · have hfa : tcKeys.contains a.1 = false := by rw [hk]; exact h
      rw [List.filter_cons, if_pos (by rw [hfa]; rfl),
        List.find?_cons_of_pos _ (by simp [hk]), List.find?_cons_of_pos _ (by simp [hk])]
    · rcases hc : tcKeys.contains a.1 with _ | _
      · rw [List.filter_cons, if_pos (by rw [hc]; rfl),
          List.find?_cons_of_neg _ (by simp [hk]),
          List.find?_cons_of_neg _ (by simp [hk]), ih]
      · rw [List.filter_cons, if_neg (by rw [hc]; simp),
          List.find?_cons_of_neg _ (by simp [hk]), ih]

lemma dataLookup_injectTraceContext (tc d : List (String × String)) (key : String)
    (h : key ∉ tc.map (fun e => e.1)) :
    dataLookup (injectTraceContext tc d) key = dataLookup d key := by
  unfold dataLookup injectTraceContext
  rw [find?_key_append _ _ _ h,
    find?_key_filter_not_in _ _ _ (contains_eq_false_of_not_mem _ _ h)]

/-- C3: enqueue(q, id, d) followed by any sequence of broker dequeues
(env or shared) in which some dequeue returns message id yields a
payload whose messageId is id, whose queue is the child queue key
resolved from (env, q, concurrencyKey) at enqueue time, and whose data
agrees with d on every field outside the injected trace context. -/
theorem C3_enqueue_dequeue_roundtrip (keys : MarQSKeyProducer) (o : MarQSOptions)
    (s : Store) (envId q id : String) (d : List (String × String))
    (ck : Option String) (t : Int) (tc : List (String × String))
    (calls : List DequeueCall) (r : Option (String × MessagePayload))
    (p : MessagePayload)
    (hr : r ∈ (runDequeues keys o
      (MarQS.enqueueMessage keys s envId q id d ck t tc) calls).2)
    (hp : r = some (id, p)) :
    p.messageId = id ∧ p.queue = keys.queueKey envId q ck ∧
      ∀ key, key ∉ tc.map (fun e => e.1) → dataLookup p.data key = dataLookup d key := by
  have hread := runDequeues_result_read keys o calls _ r hr id p hp
  rw [readMessage_enqueueMessage] at hread
  obtain rfl : enqueuedPayload keys envId q id d ck t tc = p :=
    Option.some_inj.mp hread
  refine ⟨rfl, rfl, ?_⟩
  intro key hk
  exact dataLookup_injectTraceContext tc d key hk

/-- C3 (witness): a concrete round trip - enqueue message a with data
x=1 into queue Q of environment E, then one env dequeue that returns
it. -/
theorem C3_enqueue_dequeue_roundtrip_witness :
    (some ("a", enqueuedPayload testKeys "E" "Q" "a" [("x", "1")] none 0
        [("traceparent", "tp")]) ∈
      (runDequeues testKeys testOptions
        (MarQS.enqueueMessage testKeys emptyStore "E" "Q" "a" [("x", "1")] none 0
          [("traceparent", "tp")])
        [DequeueCall.fromEnv "E" (some "queue:E:Q") 50]).2) ∧
    ((enqueuedPayload testKeys "E" "Q" "a" [("x", "1")] none 0
        [("traceparent", "tp")]).messageId = "a" ∧
      (enqueuedPayload testKeys "E" "Q" "a" [("x", "1")] none 0
        [("traceparent", "tp")]).queue = testKeys.queueKey "E" "Q" none ∧
      ∀ key, key ∉ ([("traceparent", "tp")].map (fun e => e.1)) →
        dataLookup (enqueuedPayload testKeys "E" "Q" "a" [("x", "1")] none 0
          [("traceparent", "tp")]).data key = dataLookup [("x", "1")] key) :=
  ⟨by decide,
    C3_enqueue_dequeue_roundtrip testKeys testOptions emptyStore "E" "Q" "a"
      [("x", "1")] none 0 [("traceparent", "tp")]
      [DequeueCall.fromEnv "E" (some "queue:E:Q") 50]
      (some ("a", enqueuedPayload testKeys "E" "Q" "a" [("x", "1")] none 0
        [("traceparent", "tp")]))
      (enqueuedPayload testKeys "E" "Q" "a" [("x", "1")] none 0 [("traceparent", "tp")])
      (by decide) rfl⟩

end Marqs
